import Mathlib

/-!
Verification of the kube-credential repository: a shallow embedding of the
issuance service (durable credential store, duplicate detection, worker
counter, the POST /issue route) and the verification service (cache,
verifyCredentialById, verifyCredentialByData, syncCredentials, the
POST /verify and POST /sync routes), with theorems settling the frozen
claims about the natural-language specification.

Modelling conventions:
- JavaScript objects carried as credential `data` payloads are modelled by
  the inductive `Json`; `JSON.stringify` is modelled by `Json.stringify`
  (compact form, insertion order of object keys preserved, as in JS).
- A JS `Map` with string keys is modelled as an insertion-ordered
  association list `List (String × Credential)`; `Map.set` replaces the
  value in place when the key is present and appends otherwise, `Map.get`
  is the first (unique) binding, `Map.values` is the list of values in
  insertion order.
- The backing snapshot file is modelled by `FileState`: `missing` (no
  file), `corrupt raw` (a file whose content cannot be read or parsed as
  JSON), `stored snap` (a parseable snapshot). `JSON.stringify` /
  `JSON.parse` of a well-formed snapshot round-trips its structural
  content, and `Object.fromEntries` of a Map followed by `Object.entries`
  returns the same ordered entry list (Map keys are unique, credential ids
  are not integer-like strings), so the file content of a stored snapshot
  is modelled as the structural snapshot itself.
- Nondeterministic environment inputs of the code (the generated
  credential id `cred_<Date.now()>_<random>`, the `new Date().toISOString()`
  timestamp, and whether an `fs.writeFile` succeeds) are passed as explicit
  parameters `freshId`, `now`, `writeOk`. A thrown exception is modelled by
  an `Option` / error component of the result.
-/

mutual

/-- A JSON value, the payload type of a credential `data` field
(`Record<string, any>` in the source). Object fields are kept in insertion
order, as JavaScript does for string keys. -/
inductive Json where
  | str (s : String)
  | num (n : Int)
  | bool (b : Bool)
  | null
  | arr (elems : JsonList)
  | obj (fields : JsonFields)
deriving DecidableEq, Repr

/-- The elements of a JSON array, in order. -/
inductive JsonList where
  | nil
  | cons (head : Json) (tail : JsonList)
deriving DecidableEq, Repr

/-- The fields of a JSON object, in insertion order. -/
inductive JsonFields where
  | nil
  | cons (key : String) (val : Json) (tail : JsonFields)
deriving DecidableEq, Repr

end

/-- Escaping of one character inside a JSON string literal, as
`JSON.stringify` does for the quote and backslash characters (control
characters are not modelled; no payload in this development contains one). -/
def jsonEscapeChar (c : Char) : String :=
  if c = '"' then "\\\"" else if c = '\\' then "\\\\" else String.singleton c

/-- Escaping of a whole string for a JSON string literal. -/
def jsonEscape (s : String) : String :=
  String.join (s.toList.map jsonEscapeChar)

mutual

/-- Model of `JSON.stringify` in its compact form (no spacing), preserving
the insertion order of object keys exactly as JavaScript does. This is the
serialization both services use for payload equality. -/
def Json.stringify : Json → String
  | Json.str s => "\"" ++ jsonEscape s ++ "\""
  | Json.num n => Int.repr n
  | Json.bool b => if b then "true" else "false"
  | Json.null => "null"
  | Json.arr elems => "[" ++ stringifyList elems ++ "]"
  | Json.obj fields => "\x7b" ++ stringifyFields fields ++ "\x7d"

/-- Comma-separated serialization of a list of JSON array elements. -/
def stringifyList : JsonList → String
  | JsonList.nil => ""
  | JsonList.cons x JsonList.nil => Json.stringify x
  | JsonList.cons x (JsonList.cons y rest) =>
      Json.stringify x ++ "," ++ stringifyList (JsonList.cons y rest)

/-- Comma-separated serialization of the fields of a JSON object. -/
def stringifyFields : JsonFields → String
  | JsonFields.nil => ""
  | JsonFields.cons k v JsonFields.nil => "\"" ++ jsonEscape k ++ "\":" ++ Json.stringify v
  | JsonFields.cons k v (JsonFields.cons k2 v2 rest) =>
      "\"" ++ jsonEscape k ++ "\":" ++ Json.stringify v ++ "," ++
        stringifyFields (JsonFields.cons k2 v2 rest)

end

/-- JavaScript truthiness of a JSON value (`null`, `false`, `0` and the
empty string are falsy; every object and array is truthy). Used by the
routes to test `!body.data` and similar guards. -/
def jsTruthy : Json → Bool
  | Json.null => false
  | Json.bool b => b
  | Json.num n => !(n == 0)
  | Json.str s => !(s == "")
  | Json.arr _ => true
  | Json.obj _ => true

/-- Insertion of an object field into a key-sorted field list (helper for
the canonical form used by the specification side). -/
def insertField (k : String) (v : Json) : JsonFields → JsonFields
  | JsonFields.nil => JsonFields.cons k v JsonFields.nil
  | JsonFields.cons k2 v2 rest =>
      if compare k k2 == Ordering.lt then
        JsonFields.cons k v (JsonFields.cons k2 v2 rest)
      else
        JsonFields.cons k2 v2 (insertField k v rest)

/-- Sorting of object fields by key (helper for the canonical form used by
the specification side). -/
def sortFields : JsonFields → JsonFields
  | JsonFields.nil => JsonFields.nil
  | JsonFields.cons k v rest => insertField k v (sortFields rest)

mutual

/-- Canonical form of a JSON value following the words of the
specification: object keys are recursively brought into a reproducible
(sorted) order, so that two structurally equal payloads (same keys and
values regardless of key insertion order) have the same canonical form.
This definition is the specification side of claim C2 and is compared
against the serialization the code actually uses. -/
def Json.canon : Json → Json
  | Json.str s => Json.str s
  | Json.num n => Json.num n
  | Json.bool b => Json.bool b
  | Json.null => Json.null
  | Json.arr elems => Json.arr (canonList elems)
  | Json.obj fields => Json.obj (sortFields (canonFields fields))

/-- Canonical form of each element of a JSON array. -/
def canonList : JsonList → JsonList
  | JsonList.nil => JsonList.nil
  | JsonList.cons x rest => JsonList.cons (Json.canon x) (canonList rest)

/-- Canonical form of each field value of a JSON object. -/
def canonFields : JsonFields → JsonFields
  | JsonFields.nil => JsonFields.nil
  | JsonFields.cons k v rest => JsonFields.cons k (Json.canon v) (canonFields rest)

end

/-- Deep structural equality of two payloads under a canonical
serialization, following the words of the specification (claim C2): same
keys and values, regardless of key insertion order. -/
def structEqSpec (a b : Json) : Bool :=
  a.canon == b.canon

/-- Status of a credential (`issued | pending | failed` in the source). -/
inductive Status where
  | issued
  | pending
  | failed
deriving DecidableEq, Repr

/-- A credential record, the sole persisted entity of the system
(interface `Credential` in the source). -/
structure Credential where
  id : String
  data : Json
  issuedAt : String
  issuedBy : String
  status : Status
deriving DecidableEq, Repr

/-- The JS `Map<string, Credential>` of both services, as an
insertion-ordered association list. -/
abbrev CredMap : Type := List (String × Credential)

/-- Model of `Map.prototype.set`: replace the value in place when the key
is already bound, append a new binding otherwise. -/
def mapSet (m : CredMap) (k : String) (v : Credential) : CredMap :=
  if m.any (fun p => p.1 == k) then
    m.map (fun p => if p.1 == k then (k, v) else p)
  else
    m ++ [(k, v)]

/-- Model of `Map.prototype.get` (first binding of the key; keys are
unique so the first binding is the binding). -/
def mapGet (m : CredMap) (k : String) : Option Credential :=
  (m.find? (fun p => p.1 == k)).map (fun p => p.2)

/-- Model of `Array.from(map.values())`: the values in insertion order. -/
def mapValues (m : CredMap) : List Credential :=
  m.map (fun p => p.2)

/-- In-memory state of the issuance `CredentialStorage` (interface
`StorageData` in the source): the credential map and the last assigned
worker sequence number. -/
structure StorageData where
  credentials : CredMap
  lastWorkerId : Nat
deriving DecidableEq, Repr

/-- The constructor state of `CredentialStorage`: empty map, counter 0. -/
def emptyStorage : StorageData :=
  { credentials := [], lastWorkerId := 0 }

/-- State of the backing snapshot file of the issuance store. -/
inductive FileState where
  | missing
  | corrupt (raw : String)
  | stored (snap : StorageData)
deriving DecidableEq, Repr

/-- Model of `CredentialStorage.initialize`, run on the constructor state
as the code does exactly once at startup. A `stored` snapshot is loaded
into memory (the `parsed.lastWorkerId || 0` fallback maps 0 to 0). A
missing file, and equally a file whose content cannot be read or parsed as
JSON (`corrupt`), lands in the catch branch, which writes the current
empty in-memory state as a fresh snapshot; `none` is returned when that
write itself fails (the process cannot start). -/
def initializeStorage (file : FileState) (writeOk : Bool) : Option (StorageData × FileState) :=
  match file with
  | FileState.stored snap =>
      some ({ credentials := snap.credentials, lastWorkerId := snap.lastWorkerId },
            FileState.stored snap)
  | FileState.missing =>
      if writeOk then some (emptyStorage, FileState.stored emptyStorage) else none
  | FileState.corrupt _ =>
      if writeOk then some (emptyStorage, FileState.stored emptyStorage) else none

/-- Model of `CredentialStorage.getNextWorkerId`: increment the counter
and return `worker-<n>`. -/
def getNextWorkerId (st : StorageData) : String × StorageData :=
  let next := st.lastWorkerId + 1
  ("worker-" ++ Nat.repr next, { st with lastWorkerId := next })

/-- Model of `CredentialStorage.issueCredential`: build the credential
with `status = issued`, put it into the in-memory map, then `save` the
full snapshot. The in-memory `set` happens before the save, so when the
write fails (`writeOk = false`, `fs.writeFile` throws) the function
returns the already mutated in-memory state together with `none` for the
thrown exception, and the file is unchanged. -/
def issueCredential (st : StorageData) (file : FileState) (credentialData : Json)
    (workerId freshId now : String) (writeOk : Bool) :
    StorageData × FileState × Option Credential :=
  let credential : Credential :=
    { id := freshId, data := credentialData, issuedAt := now,
      issuedBy := workerId, status := Status.issued }
  let st1 : StorageData := { st with credentials := mapSet st.credentials freshId credential }
  if writeOk then (st1, FileState.stored st1, some credential)
  else (st1, file, none)

/-- Model of `CredentialStorage.getCredential`. -/
def getCredential (st : StorageData) (id : String) : Option Credential :=
  mapGet st.credentials id

/-- Model of `CredentialStorage.getAllCredentials`. -/
def getAllCredentials (st : StorageData) : List Credential :=
  mapValues st.credentials

/-- Model of `CredentialStorage.clearAll`: empty the map, reset the
counter to 0, save. On a failed write the in-memory state is still
cleared and the exception propagates (third component `false`). -/
def clearAll (_st : StorageData) (file : FileState) (writeOk : Bool) :
    StorageData × FileState × Bool :=
  let st1 : StorageData := { credentials := [], lastWorkerId := 0 }
  if writeOk then (st1, FileState.stored st1, true) else (st1, file, false)

/-- Body of a `POST /issue` request (interface `CredentialRequest`): the
`data` field, `none` when absent. -/
structure IssueRequest where
  data : Option Json
deriving DecidableEq, Repr

/-- Response of the `POST /issue` route: HTTP status plus the JSON body
fields of `CredentialResponse`. -/
structure IssueResponse where
  status : Nat
  success : Bool
  message : String
  credential : Option Credential
  workerId : Option String
deriving DecidableEq, Repr

/-- The duplicate-content check of the `/issue` route: some existing
credential (any status) whose `data` has the same `JSON.stringify` form as
the request payload. -/
def dupCheck (existingCredentials : List Credential) (d : Json) : Bool :=
  existingCredentials.any (fun cred => cred.data.stringify == d.stringify)

/-- JavaScript truthiness of the optional `data` field of a request body
(absent and `null` are falsy, any object is truthy). -/
def dataTruthy : Option Json → Bool
  | none => false
  | some j => jsTruthy j

/-- Model of the `POST /issue` route of the issuance service. The request
body is `none` for a falsy body. The route answers 400 when
`!credentialRequest || !credentialRequest.data`, then 409 when the
duplicate check over all stored credentials fires (the store and counter
are untouched), otherwise it takes the next worker id, issues and saves
the credential, and answers 201; a thrown save failure is caught and
answered 500, after the in-memory mutation already happened. -/
def postIssue (st : StorageData) (file : FileState) (req : Option IssueRequest)
    (freshId now : String) (writeOk : Bool) : StorageData × FileState × IssueResponse :=
  match req with
  | none =>
      (st, file,
       { status := 400, success := false,
         message := "Invalid request: credential data is required",
         credential := none, workerId := none })
  | some r =>
      if dataTruthy r.data = false then
        (st, file,
         { status := 400, success := false,
           message := "Invalid request: credential data is required",
           credential := none, workerId := none })
      else
        match r.data with
        | none =>
            (st, file,
             { status := 400, success := false,
               message := "Invalid request: credential data is required",
               credential := none, workerId := none })
        | some d =>
            if dupCheck (getAllCredentials st) d then
              (st, file,
               { status := 409, success := false,
                 message := "Credential with identical data has already been issued",
                 credential := none, workerId := none })
            else
              let widSt := getNextWorkerId st
              match issueCredential widSt.2 file d widSt.1 freshId now writeOk with
              | (st2, file2, some credential) =>
                  (st2, file2,
                   { status := 201, success := true,
                     message := "Credential issued by " ++ widSt.1,
                     credential := some credential, workerId := some widSt.1 })
              | (st2, file2, none) =>
                  (st2, file2,
                   { status := 500, success := false,
                     message := "Internal server error occurred while issuing credential",
                     credential := none, workerId := none })

/-- Result of the two cache lookup operations of `VerificationStorage`. -/
structure VerifyResult where
  isValid : Bool
  credential : Option Credential
deriving DecidableEq, Repr

/-- Model of `VerificationStorage.verifyCredentialByData`: linear scan of
the cache entries in insertion order for a credential whose `data` has the
same `JSON.stringify` form as the payload and whose status is `issued`;
the first match wins and is returned as a field-by-field copy. -/
def verifyCredentialByData : CredMap → Json → VerifyResult
  | [], _ => { isValid := false, credential := none }
  | (_, credential) :: rest, credentialData =>
      if credential.data.stringify == credentialData.stringify &&
          credential.status == Status.issued then
        { isValid := true,
          credential := some
            { id := credential.id, data := credential.data,
              issuedAt := credential.issuedAt, issuedBy := credential.issuedBy,
              status := credential.status } }
      else
        verifyCredentialByData rest credentialData

/-- Model of `VerificationStorage.verifyCredentialById`: point lookup of
the id, valid only when the entry exists and its status is `issued`; the
match is returned as a field-by-field copy. -/
def verifyCredentialById (cache : CredMap) (id : String) : VerifyResult :=
  match mapGet cache id with
  | some credential =>
      if credential.status == Status.issued then
        { isValid := true,
          credential := some
            { id := credential.id, data := credential.data,
              issuedAt := credential.issuedAt, issuedBy := credential.issuedBy,
              status := credential.status } }
      else
        { isValid := false, credential := none }
  | none => { isValid := false, credential := none }

/-- Model of `VerificationStorage.syncCredentials`: clear the cache map,
then set every credential of the batch under its id (full replace, not
merge). -/
def syncCredentials (_cache : CredMap) (credentials : List Credential) : CredMap :=
  credentials.foldl (fun m cred => mapSet m cred.id cred) []

/-- Credential summary returned by a positive `POST /verify` response
(`data` deliberately omitted). -/
structure CredentialSummary where
  id : String
  issuedAt : String
  issuedBy : String
  status : Status
deriving DecidableEq, Repr

/-- Body of a `POST /verify` request: optional `id` and optional `data`. -/
structure VerifyRequest where
  id : Option String
  data : Option Json
deriving DecidableEq, Repr

/-- Response of the `POST /verify` route: HTTP status plus the JSON body
fields of `CredentialVerificationResponse`. -/
structure VerifyResponse where
  status : Nat
  success : Bool
  message : String
  isValid : Bool
  credential : Option CredentialSummary
deriving DecidableEq, Repr

/-- JavaScript truthiness of the optional `id` field of a request body
(absent and the empty string are falsy). -/
def idTruthy : Option String → Bool
  | none => false
  | some s => !(s == "")

/-- The 400 response of `POST /verify` for a request providing neither
field. -/
def verifyBadRequest : VerifyResponse :=
  { status := 400, success := false,
    message := "Invalid request: either credential ID or data is required",
    isValid := false, credential := none }

/-- Rendering of a lookup result by the `/verify` route: a positive
verdict carries a summary and a success message (locale formatting of the
timestamp by `toLocaleString` is not modelled; the raw `issuedAt` stands
in for it), a negative verdict is still HTTP 200 with `success: true`. -/
def renderVerdict (result : VerifyResult) : VerifyResponse :=
  match result.isValid, result.credential with
  | true, some c =>
      { status := 200, success := true,
        message := "Credential is valid. Issued by " ++ c.issuedBy ++ " on " ++ c.issuedAt,
        isValid := true,
        credential := some
          { id := c.id, issuedAt := c.issuedAt, issuedBy := c.issuedBy, status := c.status } }
  | _, _ =>
      { status := 200, success := true,
        message := "Credential is not valid or does not exist",
        isValid := false, credential := none }

/-- Model of the `POST /verify` route of the verification service: 400
when `!body || (!body.id && !body.data)`, then dispatch on the truthiness
of `id` (id lookup takes precedence), else on `data`; the final branch
(both fields present but falsy after the first guard) is dead code in the
source and is kept here as the 400 it would produce. -/
def postVerify (cache : CredMap) (req : Option VerifyRequest) : VerifyResponse :=
  match req with
  | none => verifyBadRequest
  | some r =>
      if !(idTruthy r.id) && !(dataTruthy r.data) then
        verifyBadRequest
      else if idTruthy r.id then
        match r.id with
        | some i => renderVerdict (verifyCredentialById cache i)
        | none =>
            { status := 400, success := false, message := "Invalid request: missing data",
              isValid := false, credential := none }
      else
        match r.data with
        | some d => renderVerdict (verifyCredentialByData cache d)
        | none =>
            { status := 400, success := false, message := "Invalid request: missing data",
              isValid := false, credential := none }

/-- Response of the `POST /sync` route. -/
structure SyncResponse where
  status : Nat
  success : Bool
  message : String
deriving DecidableEq, Repr

/-- Model of the `POST /sync` route of the verification service: 400 when
the `credentials` body field is not an array (`none`), otherwise a full
replace of the cache by the batch. -/
def postSync (cache : CredMap) (body : Option (List Credential)) : CredMap × SyncResponse :=
  match body with
  | none =>
      (cache,
       { status := 400, success := false,
         message := "Invalid request: credentials array is required" })
  | some credentials =>
      (syncCredentials cache credentials,
       { status := 200, success := true,
         message := "Synced " ++ Nat.repr credentials.length ++ " credentials" })

/-- Joint state of the two services and the replication channel: the
issuance store with its snapshot file, the set of auto-sync pushes that
are in flight (each push carries the one newly issued credential, sent as
a one-element batch), and the verification cache. -/
structure SystemState where
  store : StorageData
  file : FileState
  channel : List Credential
  cache : CredMap
deriving DecidableEq, Repr

/-- Both services after startup over an empty backing medium. -/
def initialSystem : SystemState :=
  { store := emptyStorage, file := FileState.stored emptyStorage,
    channel := [], cache := [] }

/-- Effect of one `POST /issue` request on the joint state: the route runs
on the store, and exactly when the response carries a credential (the 201
path) the auto-sync fire-and-forget push of that credential enters the
channel. -/
def issueStep (s : SystemState) (req : Option IssueRequest)
    (freshId now : String) (writeOk : Bool) : SystemState :=
  let out := postIssue s.store s.file req freshId now writeOk
  match out.2.2.credential with
  | some c => { s with store := out.1, file := out.2.1, channel := c :: s.channel }
  | none => { s with store := out.1, file := out.2.1 }

/-- Delivery of one in-flight push: the verification service handles
`POST /sync` with the one-element batch. -/
def deliverStep (s : SystemState) (c : Credential) : SystemState :=
  { s with channel := s.channel.erase c,
           cache := (postSync s.cache (some [c])).1 }

/-- One observable operation of the two-service system: an issuance
request (whose generated id is fresh, per the id-uniqueness invariant of
the store), the delivery of an in-flight push, or its silent loss (the
replication channel is best-effort). Verification requests are read-only
and do not change the state. -/
inductive Step : SystemState → SystemState → Prop where
  | issue (s : SystemState) (req : Option IssueRequest) (freshId now : String)
      (writeOk : Bool) (hfresh : mapGet s.store.credentials freshId = none) :
      Step s (issueStep s req freshId now writeOk)
  | deliver (s : SystemState) (c : Credential) (hc : c ∈ s.channel) :
      Step s (deliverStep s c)
  | drop (s : SystemState) (c : Credential) (hc : c ∈ s.channel) :
      Step s { s with channel := s.channel.erase c }

/-- The states the two-service system can reach from startup. -/
inductive Reachable : SystemState → Prop where
  | init : Reachable initialSystem
  | step {s t : SystemState} : Reachable s → Step s t → Reachable t

/-- Concrete payload used by witness states. -/
def dWit : Json :=
  Json.obj (JsonFields.cons "userId" (Json.str "u1") JsonFields.nil)

/-- Witness system state after one successful issuance. -/
def sysW1 : SystemState :=
  issueStep initialSystem (some { data := some dWit }) "cred_1" "t1" true

/-- The credential issued in `sysW1`. -/
def cWit : Credential :=
  { id := "cred_1", data := dWit, issuedAt := "t1",
    issuedBy := "worker-1", status := Status.issued }

/-- Witness system state after that issuance was replicated. -/
def sysW2 : SystemState :=
  deliverStep sysW1 cWit

/-- Inverse of `Nat.digitChar` on decimal digits (helper for the
injectivity of the decimal rendering used by worker ids). -/
def charToDigit (c : Char) : Nat :=
  if c = '0' then 0 else if c = '1' then 1 else if c = '2' then 2 else
  if c = '3' then 3 else if c = '4' then 4 else if c = '5' then 5 else
  if c = '6' then 6 else if c = '7' then 7 else if c = '8' then 8 else
  if c = '9' then 9 else 0

/-- The sequence of worker ids produced by calling `getNextWorkerId`
`n` times in a row, threading the store state. -/
def workerIdRun : StorageData → Nat → List String
  | _, 0 => []
  | st, Nat.succ n => (getNextWorkerId st).1 :: workerIdRun (getNextWorkerId st).2 n

/-! ## Helper lemmas about the Map model -/

theorem mapGet_none_iff (m : CredMap) (k : String) :
    mapGet m k = none ↔ ∀ p ∈ m, (p.1 == k) = false := by
  simp [mapGet, List.find?_eq_none]

theorem any_key_eq_false (m : CredMap) (k : String) (h : mapGet m k = none) :
    m.any (fun p => p.1 == k) = false := by
  rw [List.any_eq_false]
  intro p hp
  simp [(mapGet_none_iff m k).mp h p hp]

theorem mapSet_fresh (m : CredMap) (k : String) (v : Credential)
    (h : mapGet m k = none) : mapSet m k v = m ++ [(k, v)] := by
  simp [mapSet, any_key_eq_false m k h]

theorem mapGet_append (m1 m2 : CredMap) (k : String) :
    mapGet (m1 ++ m2) k = (mapGet m1 k).or (mapGet m2 k) := by
  simp only [mapGet, List.find?_append]
  cases m1.find? (fun p => p.1 == k) <;> simp

theorem mapGet_singleton (k k2 : String) (v : Credential) :
    mapGet [(k, v)] k2 = if k == k2 then some v else none := by
  by_cases h : (k == k2) = true <;> simp [mapGet, h]

theorem mapGet_cons (a : String × Credential) (rest : CredMap) (k : String) :
    mapGet (a :: rest) k = if a.1 == k then some a.2 else mapGet rest k := by
  cases h : (a.1 == k) with
  | true => simp [mapGet, List.find?, h]
  | false => simp [mapGet, List.find?, h]

theorem mapGet_replace (m : CredMap) (k : String) (v : Credential) :
    mapGet (m.map (fun p => if p.1 == k then (k, v) else p)) k
      = if m.any (fun p => p.1 == k) then some v else none := by
  induction m with
  | nil => rfl
  | cons a rest ih =>
      simp only [List.map_cons, List.any_cons]
      by_cases h : (a.1 == k) = true
      · rw [if_pos h, mapGet_cons,
            if_pos (show (k == k) = true by simp),
            if_pos (show (a.1 == k || rest.any fun p => p.1 == k) = true by simp [h])]
      · rw [if_neg h, mapGet_cons, if_neg h, ih]
        have hf : (a.1 == k) = false := by simpa using h
        simp only [hf, Bool.false_or]

theorem mapGet_mapSet_self (m : CredMap) (k : String) (v : Credential) :
    mapGet (mapSet m k v) k = some v := by
  unfold mapSet
  by_cases h : (m.any fun p => p.1 == k) = true
  · rw [if_pos h, mapGet_replace, if_pos h]
  · rw [if_neg h, mapGet_append]
    have hf : (m.any fun p => p.1 == k) = false := Bool.eq_false_iff.mpr h
    have hm : mapGet m k = none := by
      rw [mapGet_none_iff]
      intro p hp
      exact Bool.eq_false_iff.mpr (List.any_eq_false.mp hf p hp)
    rw [hm, mapGet_singleton]
    simp

theorem mapValues_append (m1 m2 : CredMap) :
    mapValues (m1 ++ m2) = mapValues m1 ++ mapValues m2 := by
  simp [mapValues]

theorem mem_mapValues_of_mapGet (m : CredMap) (k : String) (c : Credential)
    (h : mapGet m k = some c) : c ∈ mapValues m := by
  unfold mapGet at h
  rcases Option.map_eq_some'.mp h with ⟨p, hp, hpc⟩
  exact hpc ▸ List.mem_map_of_mem _ (List.mem_of_find?_eq_some hp)

/-! ## C8: round-trip durability -/

/-- C8: for every credential issued via `issueCredential` with a
successful snapshot write, reloading the Store from the backing medium (a
fresh `initialize` over the snapshot just saved) and calling
`getCredential` with the issued credential's id returns an object deeply
equal to the originally issued credential. -/
theorem issue_roundtrip_durability (st : StorageData) (file : FileState) (d : Json)
    (workerId freshId now : String) (w2 : Bool) :
    ∃ c : Credential,
      (issueCredential st file d workerId freshId now true).2.2 = some c
      ∧ c = { id := freshId, data := d, issuedAt := now,
              issuedBy := workerId, status := Status.issued }
      ∧ initializeStorage (issueCredential st file d workerId freshId now true).2.1 w2
          = some ((issueCredential st file d workerId freshId now true).1,
                  (issueCredential st file d workerId freshId now true).2.1)
      ∧ getCredential (issueCredential st file d workerId freshId now true).1 c.id = some c := by
  refine ⟨_, rfl, rfl, rfl, ?_⟩
  simpa [issueCredential, getCredential] using
    mapGet_mapSet_self st.credentials freshId
      { id := freshId, data := d, issuedAt := now,
        issuedBy := workerId, status := Status.issued }

/-! ## C10: initialize on an unreadable snapshot -/

/-- C10: when the snapshot file exists but its content cannot be read or
parsed as JSON, `initialize` does not fail (the backing medium being
writable) and does not preserve the file: it overwrites the snapshot with
the current empty in-memory state, so whatever the old content was, the
resulting store and stored snapshot have no credentials and worker
counter 0. -/
theorem initialize_corrupt_overwrites (raw : String) :
    initializeStorage (FileState.corrupt raw) true
      = some (emptyStorage, FileState.stored emptyStorage)
    ∧ FileState.stored emptyStorage ≠ FileState.corrupt raw
    ∧ emptyStorage.credentials = [] ∧ emptyStorage.lastWorkerId = 0 := by
  refine ⟨rfl, ?_, rfl, rfl⟩
  intro h
  exact FileState.noConfusion h

/-! ## Decimal rendering of worker ids -/

theorem toDigitsCore_eq_digits (fuel : Nat) :
    ∀ (n : Nat) (ds : List Char), 0 < n → n ≤ fuel →
      Nat.toDigitsCore 10 fuel n ds
        = ((Nat.digits 10 n).map Nat.digitChar).reverse ++ ds := by
  induction fuel with
  | zero =>
      intro n ds h1 h2
      omega
  | succ fuel ih =>
      intro n ds h1 h2
      rw [Nat.toDigitsCore]
      by_cases h : n / 10 = 0
      · simp only [h, if_pos rfl]
        rw [Nat.digits_def' (by norm_num : (1:Nat) < 10) h1, h]
        simp
      · simp only [h, if_neg h]
        have hlt : n / 10 < n := Nat.div_lt_self h1 (by norm_num)
        rw [ih (n / 10) _ (Nat.pos_of_ne_zero h) (by omega)]
        rw [Nat.digits_def' (by norm_num : (1:Nat) < 10) h1]
        simp

theorem repr_eq_digits (n : Nat) (h : 0 < n) :
    Nat.repr n = (((Nat.digits 10 n).map Nat.digitChar).reverse).asString := by
  unfold Nat.repr Nat.toDigits
  rw [toDigitsCore_eq_digits (n + 1) n [] h (by omega)]
  simp

theorem charToDigit_digitChar : ∀ d, d < 10 → charToDigit (Nat.digitChar d) = d := by decide

theorem map_digitChar_cancel (L : List Nat) (h : ∀ d ∈ L, d < 10) :
    (L.map Nat.digitChar).map charToDigit = L := by
  induction L with
  | nil => rfl
  | cons a rest ih =>
      simp only [List.map_cons, List.cons.injEq]
      exact ⟨charToDigit_digitChar a (h a (List.mem_cons_self a rest)),
             ih (fun d hd => h d (List.mem_cons_of_mem a hd))⟩

theorem digits_all_lt (n : Nat) : ∀ d ∈ Nat.digits 10 n, d < 10 := by
  intro d hd
  exact Nat.digits_lt_base (by norm_num) hd

theorem repr_injective : Function.Injective Nat.repr := by
  intro m n h
  by_cases hm : m = 0 <;> by_cases hn : n = 0
  · omega
  · exfalso
    subst hm
    rw [repr_eq_digits n (Nat.pos_of_ne_zero hn)] at h
    have h0 : Nat.repr 0 = List.asString (['0']) := rfl
    rw [h0] at h
    have hl : ['0'] = ((Nat.digits 10 n).map Nat.digitChar).reverse :=
      congrArg String.data h
    have hl2 : (Nat.digits 10 n).map Nat.digitChar = ['0'] := by
      have := congrArg List.reverse hl
      simpa using this.symm
    have hd : Nat.digits 10 n = [0] := by
      have := congrArg (List.map charToDigit) hl2
      rw [map_digitChar_cancel _ (digits_all_lt n)] at this
      simpa [charToDigit] using this
    have := Nat.ofDigits_digits 10 n
    rw [hd] at this
    simp [Nat.ofDigits] at this
    omega
  · exfalso
    subst hn
    rw [repr_eq_digits m (Nat.pos_of_ne_zero hm)] at h
    have h0 : Nat.repr 0 = List.asString (['0']) := rfl
    rw [h0] at h
    have hl : ((Nat.digits 10 m).map Nat.digitChar).reverse = ['0'] :=
      congrArg String.data h
    have hl2 : (Nat.digits 10 m).map Nat.digitChar = ['0'] := by
      have := congrArg List.reverse hl
      simpa using this
    have hd : Nat.digits 10 m = [0] := by
      have := congrArg (List.map charToDigit) hl2
      rw [map_digitChar_cancel _ (digits_all_lt m)] at this
      simpa [charToDigit] using this
    have := Nat.ofDigits_digits 10 m
    rw [hd] at this
    simp [Nat.ofDigits] at this
    omega
  · rw [repr_eq_digits m (Nat.pos_of_ne_zero hm),
        repr_eq_digits n (Nat.pos_of_ne_zero hn)] at h
    have hl : ((Nat.digits 10 m).map Nat.digitChar).reverse
        = ((Nat.digits 10 n).map Nat.digitChar).reverse := congrArg String.data h
    have hl2 := congrArg List.reverse hl
    simp only [List.reverse_reverse] at hl2
    have hmap := congrArg (List.map charToDigit) hl2
    rw [map_digitChar_cancel _ (digits_all_lt m),
        map_digitChar_cancel _ (digits_all_lt n)] at hmap
    exact Nat.digits.injective 10 hmap

theorem workerIdRun_eq (n : Nat) :
    ∀ st : StorageData,
      workerIdRun st n
        = (List.range n).map (fun i => "worker-" ++ Nat.repr (st.lastWorkerId + i + 1)) := by
  induction n with
  | zero => intro st; rfl
  | succ n ih =>
      intro st
      rw [workerIdRun, ih, List.range_succ_eq_map]
      simp only [List.map_cons, List.map_map, getNextWorkerId]
      refine congrArg₂ List.cons ?_ ?_
      · simp
      · apply List.map_congr_left
        intro a ha
        simp only [Function.comp]
        congr 2
        omega

theorem workerString_injective :
    Function.Injective (fun i : Nat => "worker-" ++ Nat.repr (i + 1)) := by
  intro a b h
  simp only at h
  have hd := congrArg String.data h
  simp only [String.data_append] at hd
  have h2 := List.append_cancel_left hd
  have h3 := repr_injective (String.ext h2)
  omega

/-! ## C7: worker counter monotonicity -/

/-- C7: starting from a fresh store (counter 0) or a cleared store,
calling `getNextWorkerId` n times sequentially yields exactly the strings
worker-1, worker-2, ..., worker-n in order, with no repeats. -/
theorem worker_ids_sequential (n : Nat) :
    workerIdRun emptyStorage n
      = (List.range n).map (fun i => "worker-" ++ Nat.repr (i + 1))
    ∧ (workerIdRun emptyStorage n).Nodup
    ∧ ∀ (st : StorageData) (file : FileState) (w : Bool),
        workerIdRun (clearAll st file w).1 n = workerIdRun emptyStorage n := by
  have hbase : workerIdRun emptyStorage n
      = (List.range n).map (fun i => "worker-" ++ Nat.repr (i + 1)) := by
    rw [workerIdRun_eq]
    simp [emptyStorage]
  refine ⟨hbase, ?_, ?_⟩
  · rw [hbase]
    exact List.Nodup.map workerString_injective (List.nodup_range n)
  · intro st file w
    cases w <;> rfl

/-! ## Characterizations of the equality checks -/

theorem dupCheck_iff (creds : List Credential) (d : Json) :
    dupCheck creds d = true ↔ ∃ c ∈ creds, c.data.stringify = d.stringify := by
  simp [dupCheck, List.any_eq_true]

theorem verifyByData_isValid_iff (cache : CredMap) (d : Json) :
    (verifyCredentialByData cache d).isValid = true
      ↔ ∃ c ∈ mapValues cache, c.status = Status.issued ∧ c.data.stringify = d.stringify := by
  induction cache with
  | nil => simp [verifyCredentialByData, mapValues]
  | cons a rest ih =>
      obtain ⟨k, c⟩ := a
      rw [verifyCredentialByData]
      by_cases h : (c.data.stringify == d.stringify && c.status == Status.issued) = true
      · rw [if_pos h]
        simp only [Bool.and_eq_true, beq_iff_eq] at h
        refine iff_of_true rfl ⟨c, ?_, h.2, h.1⟩
        simp [mapValues]
      · rw [if_neg h, ih]
        have hnot : ¬(c.status = Status.issued ∧ c.data.stringify = d.stringify) := by
          intro hc
          exact h (by simp [hc.1, hc.2])
        have hrw : mapValues ((k, c) :: rest) = c :: mapValues rest := rfl
        constructor
        · rintro ⟨c2, hc2, h1, h2⟩
          refine ⟨c2, ?_, h1, h2⟩
          rw [hrw]
          exact List.mem_cons_of_mem c hc2
        · rintro ⟨c2, hc2, h1, h2⟩
          rw [hrw] at hc2
          rcases List.mem_cons.mp hc2 with rfl | hmem
          · exact absurd ⟨h1, h2⟩ hnot
          · exact ⟨c2, hmem, h1, h2⟩

theorem verifyByData_credential_issued (cache : CredMap) (d : Json) (c : Credential)
    (h : (verifyCredentialByData cache d).credential = some c) : c.status = Status.issued := by
  induction cache with
  | nil => simp [verifyCredentialByData] at h
  | cons a rest ih =>
      obtain ⟨k, cr⟩ := a
      rw [verifyCredentialByData] at h
      by_cases hc : (cr.data.stringify == d.stringify && cr.status == Status.issued) = true
      · rw [if_pos hc] at h
        simp only [Bool.and_eq_true, beq_iff_eq] at hc
        have h2 := Option.some.inj h
        rw [← h2]
        exact hc.2
      · rw [if_neg hc] at h
        exact ih h

theorem verifyById_eq (cache : CredMap) (id : String) :
    verifyCredentialById cache id
      = match mapGet cache id with
        | some c =>
            if c.status == Status.issued
            then { isValid := true, credential := some c }
            else { isValid := false, credential := none }
        | none => { isValid := false, credential := none } := by
  unfold verifyCredentialById
  cases mapGet cache id with
  | none => rfl
  | some c =>
      by_cases h : (c.status == Status.issued) = true
      · simp only [if_pos h]
      · simp only [if_neg h]

/-! ## C4: status gating of the verification paths -/

/-- C4: `verifyCredentialById` answers valid (returning the matched
credential) iff a credential with the id is cached with status issued; a
cached credential whose status is not issued is never the match of either
`verifyCredentialById` or `verifyCredentialByData`. -/
theorem verify_status_gating (cache : CredMap) (id : String) :
    ((verifyCredentialById cache id).isValid = true
        ↔ ∃ c, mapGet cache id = some c ∧ c.status = Status.issued)
    ∧ (∀ c, mapGet cache id = some c → c.status = Status.issued →
        verifyCredentialById cache id = { isValid := true, credential := some c })
    ∧ (∀ c, mapGet cache id = some c → ¬c.status = Status.issued →
        verifyCredentialById cache id = { isValid := false, credential := none })
    ∧ (∀ c, (verifyCredentialById cache id).credential = some c → c.status = Status.issued)
    ∧ (∀ (d : Json) (c : Credential),
        (verifyCredentialByData cache d).credential = some c → c.status = Status.issued) := by
  have heq := verifyById_eq cache id
  refine ⟨?_, ?_, ?_, ?_, fun d c h => verifyByData_credential_issued cache d c h⟩
  · rw [heq]
    cases hget : mapGet cache id with
    | none => simp
    | some c =>
        by_cases h : (c.status == Status.issued) = true
        · simp only [h, if_true]
          simp only [beq_iff_eq] at h
          exact iff_of_true (by trivial) ⟨c, rfl, h⟩
        · have hf : (c.status == Status.issued) = false := Bool.eq_false_iff.mpr h
          simp only [hf, if_false]
          simp only [beq_iff_eq] at h
          constructor
          · intro hfalse
            simp at hfalse
          · rintro ⟨c2, hc2, hst⟩
            cases Option.some.inj hc2
            exact absurd hst h
  · intro c hget hst
    rw [heq, hget]
    simp [hst]
  · intro c hget hst
    rw [heq, hget]
    simp [beq_iff_eq, hst]
  · intro c h
    rw [heq] at h
    cases hget : mapGet cache id with
    | none =>
        rw [hget] at h
        simp at h
    | some c0 =>
        rw [hget] at h
        by_cases hs : (c0.status == Status.issued) = true
        · simp only [hs, if_true] at h
          cases Option.some.inj h
          simpa using hs
        · simp only [hs, if_false] at h
          simp at h

/-- Witness for C4: a cached credential with status pending is rejected
by the id lookup even on an exact id match. -/
theorem verify_status_gating_witness :
    verifyCredentialById
        [("id-1", { id := "id-1", data := Json.null, issuedAt := "t",
                    issuedBy := "worker-1", status := Status.pending })] "id-1"
      = { isValid := false, credential := none } :=
  (verify_status_gating
      [("id-1", { id := "id-1", data := Json.null, issuedAt := "t",
                  issuedBy := "worker-1", status := Status.pending })] "id-1").2.2.1
    { id := "id-1", data := Json.null, issuedAt := "t",
      issuedBy := "worker-1", status := Status.pending }
    (by decide) (by decide)

/-! ## C2: the payload equality of both checks -/

/-- C2 (amended): the equality used by both the issuance duplicate check
and the verification content match is equality of the `JSON.stringify`
serialized form, which preserves key insertion order; payloads with
identical serialization are treated as equal, payloads with different
serialization as unequal. -/
theorem data_equality_serialized_form (creds : List Credential) (cache : CredMap) (d : Json) :
    (dupCheck creds d = true ↔ ∃ c ∈ creds, c.data.stringify = d.stringify)
    ∧ ((verifyCredentialByData cache d).isValid = true
        ↔ ∃ c ∈ mapValues cache, c.status = Status.issued ∧ c.data.stringify = d.stringify) :=
  ⟨dupCheck_iff creds d, verifyByData_isValid_iff cache d⟩

/-- Counterexample for C2 as stated: the payloads a:1,b:2 and b:2,a:1 are
structurally equal in the sense of the specification (same keys and
values, different key insertion order) yet both the duplicate check and
the content match treat them as unequal. -/
theorem data_equality_key_order_counterexample :
    structEqSpec
        (Json.obj (JsonFields.cons "a" (Json.num 1)
          (JsonFields.cons "b" (Json.num 2) JsonFields.nil)))
        (Json.obj (JsonFields.cons "b" (Json.num 2)
          (JsonFields.cons "a" (Json.num 1) JsonFields.nil)))
      = true
    ∧ dupCheck
        [{ id := "x",
           data := Json.obj (JsonFields.cons "a" (Json.num 1)
             (JsonFields.cons "b" (Json.num 2) JsonFields.nil)),
           issuedAt := "t", issuedBy := "worker-1", status := Status.issued }]
        (Json.obj (JsonFields.cons "b" (Json.num 2)
          (JsonFields.cons "a" (Json.num 1) JsonFields.nil)))
      = false
    ∧ (verifyCredentialByData
        [("x", { id := "x",
                 data := Json.obj (JsonFields.cons "a" (Json.num 1)
                   (JsonFields.cons "b" (Json.num 2) JsonFields.nil)),
                 issuedAt := "t", issuedBy := "worker-1", status := Status.issued })]
        (Json.obj (JsonFields.cons "b" (Json.num 2)
          (JsonFields.cons "a" (Json.num 1) JsonFields.nil)))).isValid
      = false := by
  decide

/-! ## C1: duplicate issuance is rejected -/

/-- C1 (amended): an issuance request whose truthy `data` payload
serializes identically to the `data` of an already-issued credential in
the Store is answered 409 with the message "Credential with identical
data has already been issued" (no trailing period in the code); no new
credential is added, the snapshot file is untouched and the worker
counter is not advanced. -/
theorem issue_duplicate_rejected (st : StorageData) (file : FileState) (d : Json)
    (freshId now : String) (writeOk : Bool) (c : Credential)
    (hmem : c ∈ getAllCredentials st) (_hstatus : c.status = Status.issued)
    (hdata : c.data.stringify = d.stringify) (htruthy : jsTruthy d = true) :
    postIssue st file (some { data := some d }) freshId now writeOk
      = (st, file,
         { status := 409, success := false,
           message := "Credential with identical data has already been issued",
           credential := none, workerId := none }) := by
  have hdup : dupCheck (getAllCredentials st) d = true :=
    (dupCheck_iff _ d).mpr ⟨c, hmem, hdata⟩
  unfold postIssue
  simp [dataTruthy, htruthy, hdup]

/-- Witness for C1 at a concrete duplicate request. -/
theorem issue_duplicate_rejected_witness :
    postIssue
        { credentials :=
            [("x", { id := "x",
                     data := Json.obj (JsonFields.cons "u" (Json.str "1") JsonFields.nil),
                     issuedAt := "t", issuedBy := "worker-1", status := Status.issued })],
          lastWorkerId := 1 }
        (FileState.stored emptyStorage)
        (some { data := some (Json.obj (JsonFields.cons "u" (Json.str "1") JsonFields.nil)) })
        "cred_2" "t2" true
      = ({ credentials :=
             [("x", { id := "x",
                      data := Json.obj (JsonFields.cons "u" (Json.str "1") JsonFields.nil),
                      issuedAt := "t", issuedBy := "worker-1", status := Status.issued })],
           lastWorkerId := 1 },
         FileState.stored emptyStorage,
         { status := 409, success := false,
           message := "Credential with identical data has already been issued",
           credential := none, workerId := none }) :=
  issue_duplicate_rejected _ _ _ "cred_2" "t2" true
    { id := "x", data := Json.obj (JsonFields.cons "u" (Json.str "1") JsonFields.nil),
      issuedAt := "t", issuedBy := "worker-1", status := Status.issued }
    (by decide) (by decide) (by decide) (by decide)

/-- Counterexample for C1 as stated: at a concrete duplicate request the
409 message carries no trailing period, so it is not the string quoted in
the claim. -/
theorem issue_duplicate_message_counterexample :
    (postIssue
        { credentials :=
            [("x", { id := "x",
                     data := Json.obj (JsonFields.cons "u" (Json.str "1") JsonFields.nil),
                     issuedAt := "t", issuedBy := "worker-1", status := Status.issued })],
          lastWorkerId := 1 }
        (FileState.stored emptyStorage)
        (some { data := some (Json.obj (JsonFields.cons "u" (Json.str "1") JsonFields.nil)) })
        "cred_2" "t2" true).2.2.message
      ≠ "Credential with identical data has already been issued." := by
  decide

/-! ## C9: response taxonomy of POST /verify -/

theorem renderVerdict_status (v : VerifyResult) :
    (renderVerdict v).status = 200 ∧ (renderVerdict v).success = true := by
  unfold renderVerdict
  cases hv : v.isValid <;> cases hc : v.credential <;> simp

theorem renderVerdict_isValid (v : VerifyResult)
    (hwf : v.isValid = true → v.credential ≠ none) :
    (renderVerdict v).isValid = v.isValid := by
  unfold renderVerdict
  cases hv : v.isValid with
  | false => cases hc : v.credential <;> simp
  | true =>
      cases hc : v.credential with
      | none => exact absurd hc (hwf hv)
      | some c => simp

theorem verifyById_wf (cache : CredMap) (id : String) :
    (verifyCredentialById cache id).isValid = true →
      (verifyCredentialById cache id).credential ≠ none := by
  rw [verifyById_eq]
  cases mapGet cache id with
  | none => simp
  | some c => by_cases h : (c.status == Status.issued) = true <;> simp [h]

theorem verifyByData_wf (cache : CredMap) (d : Json) :
    (verifyCredentialByData cache d).isValid = true →
      (verifyCredentialByData cache d).credential ≠ none := by
  induction cache with
  | nil => simp [verifyCredentialByData]
  | cons a rest ih =>
      obtain ⟨k, c⟩ := a
      rw [verifyCredentialByData]
      by_cases h : (c.data.stringify == d.stringify && c.status == Status.issued) = true
      · simp [h]
      · simp only [h, if_false]
        exact ih

/-- C9 (amended): `POST /verify` answers 400 exactly when the body is
falsy or both fields are falsy by JavaScript truthiness — an empty-string
id counts as not provided, as do an absent id and absent or null data;
every other request is answered HTTP 200 with success true, the verdict
mirroring the corresponding cache lookup, so a no-match or
matched-but-not-issued outcome is a 200 with isValid false, not an
error status. -/
theorem verify_response_taxonomy (cache : CredMap) (req : Option VerifyRequest) :
    ((postVerify cache req).status = 400
      ↔ (req = none ∨ ∃ r, req = some r ∧ idTruthy r.id = false ∧ dataTruthy r.data = false))
    ∧ ((postVerify cache req).status = 400
        ∨ ((postVerify cache req).status = 200 ∧ (postVerify cache req).success = true))
    ∧ (∀ (r : VerifyRequest) (i : String), req = some r → r.id = some i → idTruthy r.id = true →
        (postVerify cache req).isValid = (verifyCredentialById cache i).isValid)
    ∧ (∀ (r : VerifyRequest) (dd : Json), req = some r → r.data = some dd →
        idTruthy r.id = false → dataTruthy r.data = true →
        (postVerify cache req).isValid = (verifyCredentialByData cache dd).isValid) := by
  rcases req with _ | r
  · refine ⟨?_, Or.inl rfl, ?_, ?_⟩
    · simp [postVerify, verifyBadRequest]
    · intro r i h
      exact absurd h (by simp)
    · intro r dd h
      exact absurd h (by simp)
  · by_cases hid : idTruthy r.id = true
    · obtain ⟨i, hi⟩ : ∃ i, r.id = some i := by
        cases hr : r.id with
        | none =>
            rw [hr] at hid
            simp [idTruthy] at hid
        | some i => exact ⟨i, rfl⟩
      have hpv : postVerify cache (some r) = renderVerdict (verifyCredentialById cache i) := by
        have hid' : idTruthy (some i) = true := hi ▸ hid
        unfold postVerify
        simp [hi, hid']
      refine ⟨?_, ?_, ?_, ?_⟩
      · rw [hpv]
        refine iff_of_false ?_ ?_
        · rw [(renderVerdict_status _).1]
          omega
        · rintro (hnone | ⟨r2, hr2, hid2, _⟩)
          · exact Option.noConfusion hnone
          · cases Option.some.inj hr2
            rw [hid2] at hid
            exact Bool.noConfusion hid
      · rw [hpv]
        exact Or.inr ⟨(renderVerdict_status _).1, (renderVerdict_status _).2⟩
      · intro r2 i2 hr2 hi2 _
        cases Option.some.inj hr2
        rw [hi] at hi2
        cases Option.some.inj hi2
        rw [hpv]
        exact renderVerdict_isValid _ (verifyById_wf cache i)
      · intro r2 dd hr2 _ hid2 _
        cases Option.some.inj hr2
        rw [hid2] at hid
        exact Bool.noConfusion hid
    · have hidf : idTruthy r.id = false := Bool.eq_false_iff.mpr hid
      by_cases hdata : dataTruthy r.data = true
      · obtain ⟨dd, hd⟩ : ∃ dd, r.data = some dd := by
          cases hr : r.data with
          | none =>
              rw [hr] at hdata
              simp [dataTruthy] at hdata
          | some dd => exact ⟨dd, rfl⟩
        have hpv : postVerify cache (some r) = renderVerdict (verifyCredentialByData cache dd) := by
          have hdata' : dataTruthy (some dd) = true := hd ▸ hdata
          unfold postVerify
          simp [hidf, hd, hdata']
        refine ⟨?_, ?_, ?_, ?_⟩
        · rw [hpv]
          refine iff_of_false ?_ ?_
          · rw [(renderVerdict_status _).1]
            omega
          · rintro (hnone | ⟨r2, hr2, _, hdata2⟩)
            · exact Option.noConfusion hnone
            · cases Option.some.inj hr2
              rw [hdata2] at hdata
              exact Bool.noConfusion hdata
        · rw [hpv]
          exact Or.inr ⟨(renderVerdict_status _).1, (renderVerdict_status _).2⟩
        · intro r2 i2 hr2 _ hid2
          cases Option.some.inj hr2
          rw [hid2] at hidf
          exact Bool.noConfusion hidf
        · intro r2 dd2 hr2 hd2 _ _
          cases Option.some.inj hr2
          rw [hd] at hd2
          cases Option.some.inj hd2
          rw [hpv]
          exact renderVerdict_isValid _ (verifyByData_wf cache dd)
      · have hdataf : dataTruthy r.data = false := Bool.eq_false_iff.mpr hdata
        have hpv : postVerify cache (some r) = verifyBadRequest := by
          unfold postVerify
          simp [hidf, hdataf]
        refine ⟨?_, ?_, ?_, ?_⟩
        · rw [hpv]
          exact iff_of_true rfl (Or.inr ⟨r, rfl, hidf, hdataf⟩)
        · rw [hpv]
          exact Or.inl rfl
        · intro r2 i2 hr2 _ hid2
          cases Option.some.inj hr2
          rw [hid2] at hidf
          exact Bool.noConfusion hidf
        · intro r2 dd2 hr2 _ _ hdata2
          cases Option.some.inj hr2
          rw [hdata2] at hdataf
          exact Bool.noConfusion hdataf

/-- Witness for C9 conjuncts at concrete requests (a negative verdict on
an empty cache is a 200 with success true and isValid false). -/
theorem verify_response_taxonomy_witness :
    (postVerify [] (some { id := some "abc", data := none })).isValid
      = (verifyCredentialById [] "abc").isValid :=
  (verify_response_taxonomy [] (some { id := some "abc", data := none })).2.2.1
    { id := some "abc", data := none } "abc" rfl rfl (by decide)

/-- Counterexample for C9 as stated: the request provides an `id` (the
empty string), so by the claim it must not be answered 400, yet the route
answers 400 because JavaScript truthiness treats the empty string as
absent. -/
theorem verify_empty_id_counterexample :
    (postVerify [] (some { id := some "", data := none })).status = 400
    ∧ ({ id := some "", data := none } : VerifyRequest).id ≠ none := by
  decide

/-! ## C3: full-replace semantics of syncCredentials -/

theorem mapGet_append_singleton_ne (acc : CredMap) (k k2 : String) (v : Credential)
    (h1 : mapGet acc k2 = none) (h2 : k ≠ k2) :
    mapGet (acc ++ [(k, v)]) k2 = none := by
  rw [mapGet_append, h1, mapGet_singleton]
  simp [h2]

theorem foldl_mapSet_fresh (batch : List Credential) :
    ∀ acc : CredMap, (batch.map Credential.id).Nodup →
      (∀ c ∈ batch, mapGet acc c.id = none) →
      batch.foldl (fun m cred => mapSet m cred.id cred) acc
        = acc ++ batch.map (fun c => (c.id, c)) := by
  induction batch with
  | nil =>
      intro acc _ _
      simp
  | cons c rest ih =>
      intro acc hnd hfresh
      simp only [List.foldl_cons, List.map_cons]
      rw [mapSet_fresh acc c.id c (hfresh c (List.mem_cons_self c rest))]
      have hnd0 := hnd
      simp only [List.map_cons, List.nodup_cons] at hnd0
      have hne : ∀ c2 ∈ rest, c2.id ≠ c.id := by
        intro c2 hc2 heq
        exact hnd0.1 (heq ▸ List.mem_map_of_mem Credential.id hc2)
      rw [ih (acc ++ [(c.id, c)]) hnd0.2 ?_]
      · simp [List.append_assoc]
      · intro c2 hc2
        exact mapGet_append_singleton_ne acc c.id c2.id c
          (hfresh c2 (List.mem_cons_of_mem c hc2))
          (fun h => hne c2 hc2 h.symm)

theorem syncCredentials_eq (cache : CredMap) (batch : List Credential)
    (h : (batch.map Credential.id).Nodup) :
    syncCredentials cache batch = batch.map (fun c => (c.id, c)) := by
  unfold syncCredentials
  rw [foldl_mapSet_fresh batch [] h (fun c _ => rfl)]
  simp

/-- C3 (amended): syncCredentials replaces the entire cache contents with
the given batch: for every prior cache state and every batch with
pairwise distinct ids, after the call the cache holds exactly the
credentials of the batch; in particular for credentials c1 with status
issued and c2 with a different id, after syncCredentials([c1, c2]) the
lookup verifyCredentialById(c1.id) answers isValid true, and after a
subsequent syncCredentials([c2]) it answers isValid false. -/
theorem syncCredentials_full_replace (cache : CredMap) (batch : List Credential)
    (c1 c2 : Credential)
    (hnd : (batch.map Credential.id).Nodup)
    (hst : c1.status = Status.issued) (hne : c1.id ≠ c2.id) :
    mapValues (syncCredentials cache batch) = batch
    ∧ (verifyCredentialById (syncCredentials cache [c1, c2]) c1.id).isValid = true
    ∧ (verifyCredentialById (syncCredentials (syncCredentials cache [c1, c2]) [c2]) c1.id).isValid
        = false := by
  refine ⟨?_, ?_, ?_⟩
  · rw [syncCredentials_eq cache batch hnd]
    simp only [mapValues, List.map_map]
    rw [show ((fun p => p.2) ∘ fun c : Credential => (c.id, c)) = id from rfl, List.map_id]
  · have hnd2 : (([c1, c2]).map Credential.id).Nodup := by simp [hne]
    rw [syncCredentials_eq cache _ hnd2, verifyById_eq]
    simp [mapGet_cons, hst]
  · have hnd1 : (([c2]).map Credential.id).Nodup := by simp
    rw [syncCredentials_eq _ _ hnd1, verifyById_eq]
    simp [mapGet_singleton, Ne.symm hne]

/-- Witness for C3 at concrete issued credentials with distinct ids. -/
theorem syncCredentials_full_replace_witness :
    mapValues (syncCredentials []
        [{ id := "a", data := Json.null, issuedAt := "t1",
           issuedBy := "worker-1", status := Status.issued },
         { id := "b", data := Json.null, issuedAt := "t2",
           issuedBy := "worker-2", status := Status.issued }])
      = [{ id := "a", data := Json.null, issuedAt := "t1",
           issuedBy := "worker-1", status := Status.issued },
         { id := "b", data := Json.null, issuedAt := "t2",
           issuedBy := "worker-2", status := Status.issued }]
    ∧ (verifyCredentialById (syncCredentials []
        [{ id := "a", data := Json.null, issuedAt := "t1",
           issuedBy := "worker-1", status := Status.issued },
         { id := "b", data := Json.null, issuedAt := "t2",
           issuedBy := "worker-2", status := Status.issued }]) "a").isValid = true
    ∧ (verifyCredentialById (syncCredentials (syncCredentials []
        [{ id := "a", data := Json.null, issuedAt := "t1",
           issuedBy := "worker-1", status := Status.issued },
         { id := "b", data := Json.null, issuedAt := "t2",
           issuedBy := "worker-2", status := Status.issued }])
        [{ id := "b", data := Json.null, issuedAt := "t2",
           issuedBy := "worker-2", status := Status.issued }]) "a").isValid = false :=
  syncCredentials_full_replace []
    [{ id := "a", data := Json.null, issuedAt := "t1",
       issuedBy := "worker-1", status := Status.issued },
     { id := "b", data := Json.null, issuedAt := "t2",
       issuedBy := "worker-2", status := Status.issued }]
    { id := "a", data := Json.null, issuedAt := "t1",
      issuedBy := "worker-1", status := Status.issued }
    { id := "b", data := Json.null, issuedAt := "t2",
      issuedBy := "worker-2", status := Status.issued }
    (by decide) (by decide) (by decide)

/-- Counterexample for C3 as stated: for a credential c1 whose status is
pending, after syncCredentials([c1, c2]) the claimed lookup
verifyCredentialById(c1.id) answers isValid false, not true. -/
theorem sync_pending_counterexample :
    (verifyCredentialById
        (syncCredentials []
          [{ id := "a", data := Json.null, issuedAt := "t1",
             issuedBy := "worker-1", status := Status.pending },
           { id := "b", data := Json.null, issuedAt := "t2",
             issuedBy := "worker-2", status := Status.issued }])
        "a").isValid = false := by
  decide

/-! ## C6: outcome taxonomy of POST /issue -/

/-- C6 (amended): the validation (400) and conflict (409) paths of
POST /issue leave the store state and the snapshot file untouched, and
the 201 path persists the new credential in the snapshot it returns; but
the 500 path (snapshot write failure) is partial: an error is returned
and the file is unchanged, yet the in-memory credential set already
contains the new credential and the worker counter has advanced. -/
theorem issue_no_partial_success (st : StorageData) (file : FileState)
    (req : Option IssueRequest) (freshId now : String) (writeOk : Bool)
    (st2 : StorageData) (file2 : FileState) (resp : IssueResponse)
    (h : postIssue st file req freshId now writeOk = (st2, file2, resp)) :
    ((resp.status = 400 ∨ resp.status = 409) → st2 = st ∧ file2 = file)
    ∧ (resp.status = 201 →
        writeOk = true ∧ file2 = FileState.stored st2
        ∧ ∃ c, resp.credential = some c ∧ getCredential st2 freshId = some c
            ∧ st2.lastWorkerId = st.lastWorkerId + 1)
    ∧ (resp.status = 500 →
        writeOk = false ∧ file2 = file
        ∧ ∃ d, req = some { data := some d }
            ∧ st2.credentials = mapSet st.credentials freshId
                { id := freshId, data := d, issuedAt := now,
                  issuedBy := "worker-" ++ Nat.repr (st.lastWorkerId + 1),
                  status := Status.issued }
            ∧ st2.lastWorkerId = st.lastWorkerId + 1)
    ∧ (resp.status = 400 ∨ resp.status = 409 ∨ resp.status = 201 ∨ resp.status = 500) := by
  rcases req with _ | r
  · unfold postIssue at h
    simp only [Prod.mk.injEq] at h
    obtain ⟨h1, h2, h3⟩ := h
    subst h1
    subst h2
    subst h3
    exact ⟨fun _ => ⟨rfl, rfl⟩, fun hs => absurd hs (by decide),
           fun hs => absurd hs (by decide), Or.inl rfl⟩
  · obtain ⟨rd⟩ := r
    rcases rd with _ | d
    · unfold postIssue at h
      simp [dataTruthy] at h
      obtain ⟨h1, h2, h3⟩ := h
      subst h1
      subst h2
      subst h3
      exact ⟨fun _ => ⟨rfl, rfl⟩, fun hs => absurd hs (by decide),
             fun hs => absurd hs (by decide), Or.inl rfl⟩
    · by_cases hT : jsTruthy d = true
      · by_cases hdup : dupCheck (getAllCredentials st) d = true
        · unfold postIssue at h
          simp [dataTruthy, hT, hdup] at h
          obtain ⟨h1, h2, h3⟩ := h
          subst h1
          subst h2
          subst h3
          exact ⟨fun _ => ⟨rfl, rfl⟩, fun hs => absurd hs (by decide),
                 fun hs => absurd hs (by decide), Or.inr (Or.inl rfl)⟩
        · cases hw : writeOk with
          | true =>
              unfold postIssue at h
              simp [dataTruthy, hT, hdup, hw, getNextWorkerId, issueCredential] at h
              obtain ⟨h1, h2, h3⟩ := h
              subst h1
              subst h2
              subst h3
              refine ⟨fun hs => by simp at hs, ?_,
                      fun hs => by simp at hs, Or.inr (Or.inr (Or.inl rfl))⟩
              intro _
              refine ⟨rfl, rfl, ?_⟩
              refine ⟨_, rfl, ?_, rfl⟩
              simpa [getCredential] using
                mapGet_mapSet_self st.credentials freshId
                  { id := freshId, data := d, issuedAt := now,
                    issuedBy := "worker-" ++ Nat.repr (st.lastWorkerId + 1),
                    status := Status.issued }
          | false =>
              unfold postIssue at h
              simp [dataTruthy, hT, hdup, hw, getNextWorkerId, issueCredential] at h
              obtain ⟨h1, h2, h3⟩ := h
              subst h1
              subst h2
              subst h3
              refine ⟨fun hs => by simp at hs, fun hs => by simp at hs,
                      ?_, Or.inr (Or.inr (Or.inr rfl))⟩
              intro _
              exact ⟨rfl, rfl, d, rfl, rfl, rfl⟩
      · have hTf : jsTruthy d = false := Bool.eq_false_iff.mpr hT
        unfold postIssue at h
        simp [dataTruthy, hTf] at h
        obtain ⟨h1, h2, h3⟩ := h
        subst h1
        subst h2
        subst h3
        exact ⟨fun _ => ⟨rfl, rfl⟩, fun hs => absurd hs (by decide),
               fun hs => absurd hs (by decide), Or.inl rfl⟩

/-- Counterexample for C6 as stated: when the snapshot write fails, the
route answers 500 (an error), yet the Store state is not unchanged: the
in-memory credential set grew and the worker counter advanced. -/
theorem issue_save_failure_counterexample :
    (postIssue emptyStorage (FileState.stored emptyStorage)
        (some { data := some (Json.obj (JsonFields.cons "u" (Json.str "2") JsonFields.nil)) })
        "f1" "n1" false).2.2.status = 500
    ∧ (postIssue emptyStorage (FileState.stored emptyStorage)
        (some { data := some (Json.obj (JsonFields.cons "u" (Json.str "2") JsonFields.nil)) })
        "f1" "n1" false).1 ≠ emptyStorage
    ∧ (postIssue emptyStorage (FileState.stored emptyStorage)
        (some { data := some (Json.obj (JsonFields.cons "u" (Json.str "2") JsonFields.nil)) })
        "f1" "n1" false).1.lastWorkerId = 1 := by
  decide

/-- Witness for C6 at a concrete request whose snapshot write fails: the
500-path conclusion of the taxonomy holds there. -/
theorem issue_no_partial_success_witness :
    false = false
    ∧ FileState.stored emptyStorage = FileState.stored emptyStorage
    ∧ ∃ d, (some { data := some (Json.obj (JsonFields.cons "u" (Json.str "2") JsonFields.nil)) }
              : Option IssueRequest)
            = some { data := some d }
        ∧ ({ credentials :=
               [("f1", { id := "f1",
                         data := Json.obj (JsonFields.cons "u" (Json.str "2") JsonFields.nil),
                         issuedAt := "n1", issuedBy := "worker-1", status := Status.issued })],
             lastWorkerId := 1 } : StorageData).credentials
            = mapSet emptyStorage.credentials "f1"
                { id := "f1", data := d, issuedAt := "n1",
                  issuedBy := "worker-" ++ Nat.repr (emptyStorage.lastWorkerId + 1),
                  status := Status.issued }
        ∧ ({ credentials :=
               [("f1", { id := "f1",
                         data := Json.obj (JsonFields.cons "u" (Json.str "2") JsonFields.nil),
                         issuedAt := "n1", issuedBy := "worker-1", status := Status.issued })],
             lastWorkerId := 1 } : StorageData).lastWorkerId
            = emptyStorage.lastWorkerId + 1 :=
  (issue_no_partial_success emptyStorage (FileState.stored emptyStorage)
    (some { data := some (Json.obj (JsonFields.cons "u" (Json.str "2") JsonFields.nil)) })
    "f1" "n1" false
    { credentials :=
        [("f1", { id := "f1",
                  data := Json.obj (JsonFields.cons "u" (Json.str "2") JsonFields.nil),
                  issuedAt := "n1", issuedBy := "worker-1", status := Status.issued })],
      lastWorkerId := 1 }
    (FileState.stored emptyStorage)
    { status := 500, success := false,
      message := "Internal server error occurred while issuing credential",
      credential := none, workerId := none }
    (by decide)).2.2.1 rfl

/-! ## C5: the cache never holds a credential the store did not persist -/

theorem postIssue_characterization (st : StorageData) (file : FileState)
    (req : Option IssueRequest) (freshId now : String) (writeOk : Bool) :
    ((postIssue st file req freshId now writeOk).1 = st
      ∧ (postIssue st file req freshId now writeOk).2.2.credential = none)
    ∨ (∃ c, (postIssue st file req freshId now writeOk).1.credentials
          = mapSet st.credentials freshId c
        ∧ ((postIssue st file req freshId now writeOk).2.2.credential = none
          ∨ (postIssue st file req freshId now writeOk).2.2.credential = some c)) := by
  rcases req with _ | r
  · exact Or.inl ⟨rfl, rfl⟩
  · obtain ⟨rd⟩ := r
    rcases rd with _ | d
    · exact Or.inl ⟨rfl, rfl⟩
    · by_cases hT : jsTruthy d = true
      · by_cases hdup : dupCheck (getAllCredentials st) d = true
        · refine Or.inl ?_
          unfold postIssue
          simp [dataTruthy, hT, hdup]
        · cases writeOk with
          | true =>
              refine Or.inr ⟨{ id := freshId, data := d, issuedAt := now,
                               issuedBy := "worker-" ++ Nat.repr (st.lastWorkerId + 1),
                               status := Status.issued }, ?_, Or.inr ?_⟩
              · unfold postIssue
                simp [dataTruthy, hT, hdup, getNextWorkerId, issueCredential]
              · unfold postIssue
                simp [dataTruthy, hT, hdup, getNextWorkerId, issueCredential]
          | false =>
              refine Or.inr ⟨{ id := freshId, data := d, issuedAt := now,
                               issuedBy := "worker-" ++ Nat.repr (st.lastWorkerId + 1),
                               status := Status.issued }, ?_, Or.inl ?_⟩
              · unfold postIssue
                simp [dataTruthy, hT, hdup, getNextWorkerId, issueCredential]
              · unfold postIssue
                simp [dataTruthy, hT, hdup, getNextWorkerId, issueCredential]
      · have hTf : jsTruthy d = false := Bool.eq_false_iff.mpr hT
        refine Or.inl ?_
        unfold postIssue
        simp [dataTruthy, hTf]

theorem mem_mapValues_mapSet_of_mem (m : CredMap) (k : String) (v c : Credential)
    (hfresh : mapGet m k = none) (h : c ∈ mapValues m) :
    c ∈ mapValues (mapSet m k v) := by
  rw [mapSet_fresh m k v hfresh, mapValues_append]
  exact List.mem_append_left _ h

theorem mem_mapValues_mapSet_self (m : CredMap) (k : String) (v : Credential)
    (hfresh : mapGet m k = none) : v ∈ mapValues (mapSet m k v) := by
  rw [mapSet_fresh m k v hfresh, mapValues_append]
  exact List.mem_append_right _ (by simp [mapValues])

/-- C5: after every reachable sequence of operations of the two services,
the verification cache (and every in-flight replication push) holds only
credentials the issuance store has persisted: the cache is a subset of
the store's credential set, never fabricated. -/
theorem cache_subset_of_store (s : SystemState) (hr : Reachable s) :
    (∀ c ∈ s.channel, c ∈ mapValues s.store.credentials)
    ∧ (∀ c ∈ mapValues s.cache, c ∈ mapValues s.store.credentials) := by
  induction hr with
  | init =>
      exact ⟨by simp [initialSystem], by simp [initialSystem, mapValues, emptyStorage]⟩
  | step h1 h2 ih =>
      rename_i s2 t
      cases h2 with
      | issue req freshId now writeOk hfresh =>
          rcases postIssue_characterization s2.store s2.file req freshId now writeOk with
            ⟨hst, hcred⟩ | ⟨c0, hst, hcred⟩
          · constructor
            · intro c hc
              simp only [issueStep, hcred] at hc ⊢
              rw [hst]
              exact ih.1 c hc
            · intro c hc
              simp only [issueStep, hcred] at hc ⊢
              rw [hst]
              exact ih.2 c hc
          · rcases hcred with hcred | hcred
            · constructor
              · intro c hc
                simp only [issueStep, hcred] at hc ⊢
                rw [hst]
                exact mem_mapValues_mapSet_of_mem _ _ _ _ hfresh (ih.1 c hc)
              · intro c hc
                simp only [issueStep, hcred] at hc ⊢
                rw [hst]
                exact mem_mapValues_mapSet_of_mem _ _ _ _ hfresh (ih.2 c hc)
            · constructor
              · intro c hc
                simp only [issueStep, hcred] at hc ⊢
                rw [hst]
                rcases List.mem_cons.mp hc with rfl | hmem
                · exact mem_mapValues_mapSet_self _ _ _ hfresh
                · exact mem_mapValues_mapSet_of_mem _ _ _ _ hfresh (ih.1 c hmem)
              · intro c hc
                simp only [issueStep, hcred] at hc ⊢
                rw [hst]
                exact mem_mapValues_mapSet_of_mem _ _ _ _ hfresh (ih.2 c hc)
      | deliver c hcmem =>
          have hsync : (postSync s2.cache (some [c])).1 = [(c.id, c)] := rfl
          constructor
          · intro x hx
            simp only [deliverStep] at hx ⊢
            exact ih.1 x (List.mem_of_mem_erase hx)
          · intro x hx
            simp only [deliverStep, hsync] at hx ⊢
            have hxc : x = c := by simpa [mapValues] using hx
            rw [hxc]
            exact ih.1 c hcmem
      | drop c hcmem =>
          constructor
          · intro x hx
            exact ih.1 x (List.mem_of_mem_erase hx)
          · intro x hx
            exact ih.2 x hx

/-- Witness for C5 at a concrete reachable state: after one issuance and
the delivery of its replication push, the cached credential is in the
store. -/
theorem cache_subset_of_store_witness :
    cWit ∈ mapValues sysW2.store.credentials :=
  (cache_subset_of_store sysW2
    (Reachable.step
      (Reachable.step Reachable.init
        (Step.issue initialSystem (some { data := some dWit }) "cred_1" "t1" true (by decide)))
      (Step.deliver sysW1 cWit (by decide)))).2 cWit (by decide)
